import Mathlib

/-!
Shallow embedding of `ls/joyous/formats/vtimezone.py` and proofs about it.

The module has two entry points:

* `to_naive_utc` — normalizes a datetime-like value to a naive UTC value;
* `create_timezone` — builds an icalendar VTIMEZONE component tree from a
  timezone reference (static fixed-offset, or dynamic with a pytz-style
  transition history) and an optional date window.

Modelling conventions:

* Naive datetimes are modelled by their face-value timestamp, an `Int`
  (seconds).  Aware datetimes carry the same instant plus an `aware` flag
  (`PyDT`).  Python 3 refuses to order a naive datetime against an aware
  one (`TypeError`); the model's comparison `pyLt` returns an error in
  exactly that case.
* A recorded UTC offset may or may not be a `timedelta`; `Offset` is a sum
  of a `timedelta` of some seconds and a non-timedelta value tagged with
  its type name, mirroring the `isinstance(…, dt.timedelta)` checks.
* `tz._utc_transition_times` and `tz._transition_info` are parallel lists
  of equal length in pytz; the model bundles them into one list of
  `Transition` records `(time, offset, isDst, name)`.
* Python list indexing with possible negative wrap-around is `pyIdx`.
* The Python `dict` keyed by abbreviated name (insertion ordered, as in
  Python 3.7+) is an association list `List (String × SubComp)`.
* Fallible code returns `Except String _`; the error strings carry the
  Python exception and message raised by the source.
-/

/-- A recorded UTC offset: either a `datetime.timedelta` of the given number
of seconds, or a value of some other type (tagged by the type's name). -/
inductive Offset where
  | td (seconds : Int)
  | notTd (typeName : String)
  deriving DecidableEq, Inhabited

/-- The `isinstance(x, dt.timedelta)` test on a recorded offset. -/
def Offset.isTd : Offset → Bool
  | Offset.td _ => true
  | Offset.notTd _ => false

/-- One entry of a pytz transition history: the naive UTC transition instant
(`_utc_transition_times[num]`) together with the parallel
`_transition_info[num] = (utcoffset, dst, tzname)` record. -/
structure Transition where
  time : Int
  offset : Offset
  isDst : Bool
  name : String
  deriving DecidableEq, Inhabited

/-- A Python datetime for comparison purposes: its instant and whether it is
timezone-aware.  For a naive value the instant is its face value; for an
aware value it is the absolute (UTC) instant, which is what Python compares
between two aware datetimes and what `astimezone` preserves. -/
structure PyDT where
  instant : Int
  aware : Bool
  deriving DecidableEq, Inhabited

/-- A datetime-like argument of `to_naive_utc`: a value with no `tzinfo`
attribute at all, a naive datetime (`tzinfo is None`), or an aware datetime
in some zone.  For an aware value `instant` is the absolute UTC instant, so
converting to UTC and stripping `tzinfo` yields the naive value `instant`. -/
inductive DTLike where
  | nonDT (tag : String)
  | naive (instant : Int)
  | aware (instant : Int) (zone : String)
  deriving DecidableEq, Inhabited

/-- Lines 32–41: `to_naive_utc(dtime)`.  A value with no `tzinfo` attribute,
or with `tzinfo is None`, is returned unchanged; otherwise the value is
converted to UTC (`astimezone(pytz.UTC)`, preserving the instant) and its
`tzinfo` is stripped (`replace(tzinfo=None)`). -/
def to_naive_utc : DTLike → DTLike
  | DTLike.nonDT tag => DTLike.nonDT tag
  | DTLike.naive instant => DTLike.naive instant
  | DTLike.aware instant _ => DTLike.naive instant

/-- The guard `not hasattr(dtime, 'tzinfo') or dtime.tzinfo is None`. -/
def hasNoTz : DTLike → Bool
  | DTLike.nonDT _ => true
  | DTLike.naive _ => true
  | DTLike.aware _ _ => false

/-- Python 3 datetime `<`: defined between two naive or two aware values by
comparing instants; ordering a naive against an aware value raises
`TypeError`. -/
def pyLt (a b : PyDT) : Except String Bool :=
  if a.aware = b.aware then Except.ok (decide (a.instant < b.instant))
  else Except.error "TypeError: cannot compare offset-naive and offset-aware datetimes"

/-- Python 3 datetime `>`: `a > b` is `b < a`. -/
def pyGt (a b : PyDT) : Except String Bool :=
  pyLt b a

/-- Lines 74–75: `dt.datetime.now(tz) if not first_date else
first_date.astimezone(tz)`.  Both branches yield an aware datetime: `now(tz)`
is aware, and `astimezone` always attaches `tz`.  The model takes the bound's
absolute instant (`some i`) or the current instant `now`. -/
def normBound (b : Option Int) (now : Int) : PyDT :=
  match b with
  | none => PyDT.mk now true
  | some i => PyDT.mk i true

/-- Python list indexing `l[i]`: a negative index wraps around once by the
list's length; an index still out of range raises `IndexError`. -/
def pyIdx (l : List Transition) (i : Int) : Except String Transition :=
  let j : Int := if i < 0 then i + l.length else i
  if j < 0 then Except.error "IndexError: list index out of range"
  else
    match l.get? j.toNat with
    | some a => Except.ok a
    | none => Except.error "IndexError: list index out of range"

/-- The epoch sentinel `dt.datetime(1601, 1, 1)` of the static path, as a
naive timestamp (seconds relative to the Unix epoch). -/
def datetime1601 : Int := -11644473600

/-- A STANDARD or DAYLIGHT sub-component of the VTIMEZONE tree, with its
TZNAME, DTSTART (naive local time), RDATE list (naive local times), and
TZOFFSETTO / TZOFFSETFROM in seconds (only timedelta values are ever added,
either `timedelta(seconds=0)` on the static path or checked values on the
dynamic path). -/
structure SubComp where
  isDaylight : Bool
  tzname : String
  dtstart : Int
  rdates : List Int
  offsetTo : Int
  offsetFrom : Int
  deriving DecidableEq, Inhabited

/-- The VTIMEZONE component tree: TZID and the ordered sub-components. -/
structure VTimezone where
  tzid : String
  subcomps : List SubComp
  deriving DecidableEq, Inhabited

/-- A static (fixed-offset) timezone reference: a `dt.tzinfo` without a
`_utc_transition_times` attribute.  `name` is its display string and
`offset` the result of `tz.utcoffset(None)`. -/
structure StaticTZ where
  name : String
  offset : Offset
  deriving DecidableEq, Inhabited

/-- A dynamic (pytz-style) timezone reference: its display string, the
transition history, and the map `t ↦ tz.fromutc(t).replace(tzinfo=None)`
taking a naive UTC instant to the naive local time. -/
structure DynTZ where
  name : String
  transitions : List Transition
  localize : Int → Int

/-- The two accepted shapes of the `tz` argument of `create_timezone`
(line 57 probes `isinstance(tz, dt.tzinfo)` and
`hasattr(tz, '_utc_transition_times')`). -/
inductive TZRef where
  | static (tz : StaticTZ)
  | dyn (tz : DynTZ)

/-- Lines 57–67, the static path of `create_timezone`: one STANDARD
sub-component.  Note that line 59 fetches `tz.utcoffset(None)` but lines
60–61 replace it with `timedelta(seconds=0)`, so both TZOFFSET values are
zero whatever the zone's fixed offset is. -/
def buildStatic (tz : StaticTZ) : VTimezone :=
  let _offset := tz.offset
  let offset_seconds : Int := 0
  let offset : Int := offset_seconds
  VTimezone.mk tz.name [SubComp.mk false tz.name datetime1601 [] offset offset]

/-- Lines 102–108, the body of the window-selection loop, folded over the
enumerated transition times.  `fn, ft, ln, lt` are the running
`first_num, first_tt, last_num, last_tt`.  Each `and` short-circuits: the
naive-vs-aware comparison against `first_date` / `last_date` is evaluated
only when the naive-vs-naive comparison before it is true. -/
def scanAux (fd ld : PyDT) : Nat → List Int → Nat → Int → Nat → Int →
    Except String (Nat × Nat)
  | _, [], fn, _, ln, _ => Except.ok (fn, ln)
  | num, t :: rest, fn, ft, ln, lt =>
    match (if ft < t then pyLt (PyDT.mk t false) fd else Except.ok false) with
    | Except.error e => Except.error e
    | Except.ok b1 =>
      match (if t < lt then pyGt (PyDT.mk t false) ld else Except.ok false) with
      | Except.error e => Except.error e
      | Except.ok b2 =>
        scanAux fd ld (num + 1) rest
          (if b1 then num else fn) (if b1 then t else ft)
          (if b2 then num else ln) (if b2 then t else lt)

/-- Lines 99–108: initialize `first_num, last_num = 0, len(times) - 1`,
`first_tt = times[0]`, `last_tt = times[-1]`, then run the loop.  An empty
history raises `IndexError` at `times[0]`. -/
def scanWindow (times : List Int) (fd ld : PyDT) : Except String (Nat × Nat) :=
  match times with
  | [] => Except.error "IndexError: list index out of range"
  | t0 :: rest =>
    scanAux fd ld 0 (t0 :: rest) 0 t0 rest.length
      ((t0 :: rest).getLast (List.cons_ne_nil t0 rest))

/-- Lookup `name in timezones` / `timezones[name]` on the insertion-ordered
dict modelled as an association list. -/
def dictFind : List (String × SubComp) → String → Option SubComp
  | [], _ => none
  | (k, s) :: rest, name => if k = name then some s else dictFind rest name

/-- Appending one RDATE value to a sub-component (both the
`timezones[name]['RDATE'].dts.append(...)` and the
`timezones[name].add('RDATE', ttime)` branches append one value). -/
def addRd (s : SubComp) (v : Int) : SubComp :=
  SubComp.mk s.isDaylight s.tzname s.dtstart (s.rdates ++ [v]) s.offsetTo s.offsetFrom

/-- In-place update of the dict entry for `name` with one more RDATE value;
keys and every other entry are unchanged. -/
def dictAppendRdate : List (String × SubComp) → String → Int → List (String × SubComp)
  | [], _, _ => []
  | (k, s) :: rest, name, v =>
    if k = name then (k, addRd s v) :: rest
    else (k, s) :: dictAppendRdate rest name v

/-- Lines 112–140, one iteration of the rendering loop at index `num`.
If the abbreviated name was seen before, append the local start time as an
RDATE.  Otherwise build a new DAYLIGHT/STANDARD sub-component; its
TZOFFSETTO is `_transition_info[num][0]` and its TZOFFSETFROM is
`_transition_info[num - 1][0]` (Python indexing, so `num = 0` reads the
last element), both required to be `timedelta` values on pain of
`ValueError`. -/
def renderStep (d : DynTZ) (num : Nat) (acc : List (String × SubComp)) :
    Except String (List (String × SubComp)) :=
  match pyIdx d.transitions (num : Int) with
  | Except.error e => Except.error e
  | Except.ok tr =>
    match dictFind acc tr.name with
    | some _ => Except.ok (dictAppendRdate acc tr.name (d.localize tr.time))
    | none =>
      match pyIdx d.transitions ((num : Int) - 1) with
      | Except.error e => Except.error e
      | Except.ok trPrev =>
        match tr.offset, trPrev.offset with
        | Offset.td toSec, Offset.td fromSec =>
          Except.ok (acc ++
            [(tr.name, SubComp.mk tr.isDst tr.name (d.localize tr.time) [] toSec fromSec)])
        | _, _ => Except.error "ValueError: TZOFFSET values must be timedelta instances"

/-- Lines 111–140: the rendering loop over `range(first_num, last_num + 1)`
carrying the insertion-ordered dict. -/
def renderAux (d : DynTZ) : List Nat → List (String × SubComp) →
    Except String (List (String × SubComp))
  | [], acc => Except.ok acc
  | num :: rest, acc =>
    match renderStep d num acc with
    | Except.error e => Except.error e
    | Except.ok acc1 => renderAux d rest acc1

/-- Lines 43–145: `create_timezone(tz, first_date=None, last_date=None)`.
The static path returns immediately; the dynamic path normalizes the bounds
(both become aware), selects the index window `[first_num, last_num]`, runs
the rendering loop over it and attaches the dict's values in insertion
order. -/
def create_timezone (tz : TZRef) (first_date last_date : Option Int) (now : Int) :
    Except String VTimezone :=
  match tz with
  | TZRef.static s => Except.ok (buildStatic s)
  | TZRef.dyn d =>
    match scanWindow (d.transitions.map Transition.time)
        (normBound first_date now) (normBound last_date now) with
    | Except.error e => Except.error e
    | Except.ok (first_num, last_num) =>
      match renderAux d (List.range' first_num (last_num + 1 - first_num)) [] with
      | Except.error e => Except.error e
      | Except.ok dict => Except.ok (VTimezone.mk d.name (dict.map Prod.snd))

/-- The transition record at an index (total version, for stating theorems;
whenever the code actually reads index `n`, `n` is in range and this agrees
with the read). -/
def trAt (d : DynTZ) (n : Nat) : Transition :=
  (d.transitions.get? n).getD default

/-- First-seen deduplication with an accumulator of already-seen keys:
the distinct names of a list in first-occurrence order, the order in which
the rendering dict acquires its keys. -/
def firstSeenAux (seen : List String) : List String → List String
  | [] => []
  | x :: xs =>
    if x ∈ seen then firstSeenAux seen xs else x :: firstSeenAux (x :: seen) xs

/-- The distinct elements of a list in first-occurrence order. -/
def firstSeen (l : List String) : List String :=
  firstSeenAux [] l

/-- The abbreviated names of the transitions with indices in the inclusive
window `[f, l]`. -/
def windowNames (d : DynTZ) (f l : Nat) : List String :=
  (List.range' f (l + 1 - f)).map fun n => (trAt d n).name

/-! ### Basic lemmas about the Python-indexing and dict models -/

theorem pyIdx_natCast (l : List Transition) (n : Nat) :
    pyIdx l (n : Int) =
      match l.get? n with
      | some a => Except.ok a
      | none => Except.error "IndexError: list index out of range" := by
  have h1 : ¬ ((n : Int) < 0) := by exact_mod_cast Int.not_lt.mpr (Int.natCast_nonneg n)
  simp [pyIdx, h1]

theorem pyIdx_get? {l : List Transition} {n : Nat} {a : Transition}
    (h : l.get? n = some a) : pyIdx l (n : Int) = Except.ok a := by
  rw [pyIdx_natCast, h]

theorem pyIdx_natCast_ok {l : List Transition} {n : Nat} {a : Transition}
    (h : pyIdx l (n : Int) = Except.ok a) : l.get? n = some a := by
  rw [pyIdx_natCast] at h
  cases hg : l.get? n <;> rw [hg] at h <;> simp_all

theorem pyIdx_neg_one (l : List Transition) (h : l ≠ []) :
    pyIdx l (-1) = Except.ok (l.getLast h) := by
  have hl : 0 < l.length := List.length_pos.mpr h
  have h1 : ((-1 : Int) < 0) := by omega
  have h2 : ¬ ((-1 : Int) + l.length < 0) := by
    have : (1 : Int) ≤ l.length := by exact_mod_cast hl
    omega
  have h3 : ((-1 : Int) + l.length).toNat = l.length - 1 := by omega
  have h4 : l.get? (l.length - 1) = some (l.getLast h) := by
    have h5 : l.length - 1 < l.length := by omega
    rw [List.get?_eq_get h5]
    congr 1
    exact (List.getLast_eq_getElem l h).symm ▸ rfl
  simp only [pyIdx, if_pos h1, if_neg h2, h3, h4]

theorem dictFind_eq_none {l : List (String × SubComp)} {k : String} :
    dictFind l k = none ↔ k ∉ l.map Prod.fst := by
  induction l with
  | nil => simp [dictFind]
  | cons p rest ih =>
    obtain ⟨k0, s0⟩ := p
    by_cases hk : k0 = k
    · subst hk
      simp [dictFind]
    · simp [dictFind, hk, ih, Ne.symm hk]

theorem dictFind_some_mem_keys {l : List (String × SubComp)} {k : String} {s : SubComp}
    (h : dictFind l k = some s) : k ∈ l.map Prod.fst := by
  by_contra hc
  rw [← dictFind_eq_none] at hc
  rw [h] at hc
  exact Option.noConfusion hc

theorem dictFind_mem {l : List (String × SubComp)} {k : String} {s : SubComp}
    (h : dictFind l k = some s) : (k, s) ∈ l := by
  induction l with
  | nil => exact absurd h (by simp [dictFind])
  | cons p rest ih =>
    obtain ⟨k0, s0⟩ := p
    by_cases hk : k0 = k
    · subst hk
      rw [dictFind, if_pos rfl] at h
      exact (Option.some_inj.mp h) ▸ List.mem_cons_self _ _
    · rw [dictFind, if_neg hk] at h
      exact List.mem_cons_of_mem _ (ih h)

theorem mem_dictFind {l : List (String × SubComp)} {k : String} {s : SubComp}
    (hnd : (l.map Prod.fst).Nodup) (h : (k, s) ∈ l) : dictFind l k = some s := by
  induction l with
  | nil => exact absurd h (List.not_mem_nil _)
  | cons p rest ih =>
    obtain ⟨k0, s0⟩ := p
    rw [List.map_cons, List.nodup_cons] at hnd
    rcases List.mem_cons.mp h with heq | hmem
    · rw [Prod.mk.injEq] at heq
      rw [dictFind, if_pos heq.1.symm, heq.2]
    · have hk : k0 ≠ k := by
        intro hc
        subst hc
        exact hnd.1 (List.mem_map.mpr ⟨(k0, s), hmem, rfl⟩)
      rw [dictFind, if_neg hk]
      exact ih hnd.2 hmem

theorem dictFind_append_some {l1 l2 : List (String × SubComp)} {k : String} {s : SubComp}
    (h : dictFind l1 k = some s) : dictFind (l1 ++ l2) k = some s := by
  induction l1 with
  | nil => exact absurd h (by simp [dictFind])
  | cons p rest ih =>
    obtain ⟨k0, s0⟩ := p
    by_cases hk : k0 = k
    · rw [dictFind, if_pos hk] at h
      rw [List.cons_append, dictFind, if_pos hk]
      exact h
    · rw [dictFind, if_neg hk] at h
      rw [List.cons_append, dictFind, if_neg hk]
      exact ih h

theorem dictFind_append_none {l1 l2 : List (String × SubComp)} {k : String}
    (h : dictFind l1 k = none) : dictFind (l1 ++ l2) k = dictFind l2 k := by
  induction l1 with
  | nil => simp
  | cons p rest ih =>
    obtain ⟨k0, s0⟩ := p
    by_cases hk : k0 = k
    · rw [dictFind, if_pos hk] at h
      exact Option.noConfusion h
    · rw [dictFind, if_neg hk] at h
      rw [List.cons_append, dictFind, if_neg hk]
      exact ih h

theorem dictAppendRdate_map_fst (l : List (String × SubComp)) (k : String) (v : Int) :
    (dictAppendRdate l k v).map Prod.fst = l.map Prod.fst := by
  induction l with
  | nil => rfl
  | cons p rest ih =>
    obtain ⟨k0, s0⟩ := p
    by_cases hk : k0 = k
    · simp [dictAppendRdate, hk]
    · simp [dictAppendRdate, hk, ih]

theorem dictFind_appendRdate_self (l : List (String × SubComp)) (k : String) (v : Int) :
    dictFind (dictAppendRdate l k v) k = (dictFind l k).map (fun s => addRd s v) := by
  induction l with
  | nil => rfl
  | cons p rest ih =>
    obtain ⟨k0, s0⟩ := p
    by_cases hk : k0 = k
    · rw [dictAppendRdate, if_pos hk, dictFind, if_pos hk, dictFind, if_pos hk]
      rfl
    · rw [dictAppendRdate, if_neg hk, dictFind, if_neg hk, dictFind, if_neg hk]
      exact ih

theorem dictFind_appendRdate_other (l : List (String × SubComp)) {k k2 : String} (v : Int)
    (hne : k2 ≠ k) :
    dictFind (dictAppendRdate l k v) k2 = dictFind l k2 := by
  induction l with
  | nil => rfl
  | cons p rest ih =>
    obtain ⟨k0, s0⟩ := p
    by_cases hk : k0 = k
    · subst hk
      rw [dictAppendRdate, if_pos rfl, dictFind, if_neg (fun hc => hne hc.symm),
        dictFind, if_neg (fun hc => hne hc.symm)]
    · rw [dictAppendRdate, if_neg hk, dictFind, dictFind]
      by_cases hk2 : k0 = k2
      · rw [if_pos hk2, if_pos hk2]
      · rw [if_neg hk2, if_neg hk2]
        exact ih

theorem dictAppendRdate_mem {l : List (String × SubComp)} {k : String} {v : Int}
    {p : String × SubComp} (h : p ∈ dictAppendRdate l k v) :
    ∃ q ∈ l, p.1 = q.1 ∧ (p.2 = q.2 ∨ p.2 = addRd q.2 v) := by
  induction l with
  | nil => exact absurd h (List.not_mem_nil _)
  | cons q0 rest ih =>
    obtain ⟨k0, s0⟩ := q0
    by_cases hk : k0 = k
    · rw [dictAppendRdate, if_pos hk] at h
      rcases List.mem_cons.mp h with heq | hmem
      · exact ⟨(k0, s0), List.mem_cons_self _ _, by rw [heq], by rw [heq]; exact Or.inr rfl⟩
      · exact ⟨p, List.mem_cons_of_mem _ hmem, rfl, Or.inl rfl⟩
    · rw [dictAppendRdate, if_neg hk] at h
      rcases List.mem_cons.mp h with heq | hmem
      · exact ⟨(k0, s0), List.mem_cons_self _ _, by rw [heq], by rw [heq]; exact Or.inl rfl⟩
      · rcases ih hmem with ⟨q, hq, h1, h2⟩
        exact ⟨q, List.mem_cons_of_mem _ hq, h1, h2⟩

/-! ### Structural lemmas about the rendering loop -/

theorem renderAux_nil_ok {d : DynTZ} {acc dict : List (String × SubComp)} :
    renderAux d [] acc = Except.ok dict ↔ acc = dict := by
  simp [renderAux, eq_comm]

theorem renderAux_cons_ok {d : DynTZ} {num : Nat} {rest : List Nat}
    {acc dict : List (String × SubComp)} :
    renderAux d (num :: rest) acc = Except.ok dict ↔
      ∃ acc1, renderStep d num acc = Except.ok acc1 ∧
        renderAux d rest acc1 = Except.ok dict := by
  cases hs : renderStep d num acc with
  | error e => simp [renderAux, hs]
  | ok a => simp [renderAux, hs]

theorem renderStep_ok {d : DynTZ} {num : Nat} {acc acc1 : List (String × SubComp)}
    (h : renderStep d num acc = Except.ok acc1) :
    ∃ tr, d.transitions.get? num = some tr ∧
      ((∃ s0, dictFind acc tr.name = some s0 ∧
          acc1 = dictAppendRdate acc tr.name (d.localize tr.time)) ∨
       (∃ trP x y, dictFind acc tr.name = none ∧
          pyIdx d.transitions ((num : Int) - 1) = Except.ok trP ∧
          tr.offset = Offset.td x ∧ trP.offset = Offset.td y ∧
          acc1 = acc ++
            [(tr.name, SubComp.mk tr.isDst tr.name (d.localize tr.time) [] x y)])) := by
  unfold renderStep at h
  cases hi : pyIdx d.transitions (num : Int) with
  | error e => rw [hi] at h; exact Except.noConfusion h
  | ok tr =>
    rw [hi] at h
    dsimp only at h
    refine ⟨tr, pyIdx_natCast_ok hi, ?_⟩
    cases hf : dictFind acc tr.name with
    | some s0 =>
      rw [hf] at h
      dsimp only at h
      exact Or.inl ⟨s0, rfl, (Except.ok.inj h).symm⟩
    | none =>
      rw [hf] at h
      dsimp only at h
      cases hp : pyIdx d.transitions ((num : Int) - 1) with
      | error e => rw [hp] at h; exact Except.noConfusion h
      | ok trP =>
        rw [hp] at h
        dsimp only at h
        cases hto : tr.offset with
        | td x =>
          cases hfrom : trP.offset with
          | td y =>
            rw [hto, hfrom] at h
            dsimp only at h
            refine Or.inr ⟨trP, x, y, rfl, rfl, rfl, hfrom, ?_⟩
            exact (Except.ok.inj h).symm
          | notTd ty =>
            rw [hto, hfrom] at h
            exact Except.noConfusion h
        | notTd ty =>
          rw [hto] at h
          cases hfrom : trP.offset with
          | td y => rw [hfrom] at h; exact Except.noConfusion h
          | notTd ty2 => rw [hfrom] at h; exact Except.noConfusion h

theorem trAt_of_get? {d : DynTZ} {n : Nat} {tr : Transition}
    (h : d.transitions.get? n = some tr) : trAt d n = tr := by
  rw [trAt, h]
  rfl

theorem firstSeenAux_congr :
    ∀ (l s1 s2 : List String), (∀ x, x ∈ s1 ↔ x ∈ s2) →
      firstSeenAux s1 l = firstSeenAux s2 l
  | [], _, _, _ => rfl
  | x :: xs, s1, s2, h => by
    by_cases hx : x ∈ s1
    · rw [firstSeenAux, if_pos hx, firstSeenAux, if_pos ((h x).mp hx)]
      exact firstSeenAux_congr xs s1 s2 h
    · have hx2 : x ∉ s2 := fun hc => hx ((h x).mpr hc)
      rw [firstSeenAux, if_neg hx, firstSeenAux, if_neg hx2]
      rw [firstSeenAux_congr xs (x :: s1) (x :: s2)
        (by intro y; simp only [List.mem_cons]; rw [h y])]

theorem renderAux_keys (d : DynTZ) :
    ∀ (nums : List Nat) (acc dict : List (String × SubComp)),
      renderAux d nums acc = Except.ok dict →
      dict.map Prod.fst = acc.map Prod.fst ++
        firstSeenAux (acc.map Prod.fst) (nums.map fun n => (trAt d n).name)
  | [], acc, dict, h => by
    rw [renderAux_nil_ok] at h
    subst h
    simp [firstSeenAux]
  | num :: rest, acc, dict, h => by
    rcases renderAux_cons_ok.mp h with ⟨acc1, hs, hrest⟩
    rcases renderStep_ok hs with ⟨tr, hget, hcase⟩
    have hname : trAt d num = tr := trAt_of_get? hget
    have ih := renderAux_keys d rest acc1 dict hrest
    rcases hcase with ⟨s0, hfind, rfl⟩ | ⟨trP, x, y, hfind, hp, hto, hfrom, rfl⟩
    · rw [ih, dictAppendRdate_map_fst]
      rw [List.map_cons, hname]
      rw [firstSeenAux, if_pos (dictFind_some_mem_keys hfind)]
    · have hnotmem : tr.name ∉ acc.map Prod.fst := dictFind_eq_none.mp hfind
      rw [ih]
      rw [List.map_cons, hname]
      rw [firstSeenAux, if_neg hnotmem]
      rw [List.map_append]
      rw [List.append_assoc]
      congr 1
      have hcongr : firstSeenAux (acc.map Prod.fst ++ [(tr.name, SubComp.mk tr.isDst
          tr.name (d.localize tr.time) [] x y)].map Prod.fst)
            (rest.map fun n => (trAt d n).name) =
          firstSeenAux (tr.name :: acc.map Prod.fst)
            (rest.map fun n => (trAt d n).name) := by
        apply firstSeenAux_congr
        intro z
        simp [or_comm]
      rw [hcongr]
      simp

theorem renderAux_tzname (d : DynTZ) :
    ∀ (nums : List Nat) (acc dict : List (String × SubComp)),
      renderAux d nums acc = Except.ok dict →
      (∀ p ∈ acc, (Prod.snd p).tzname = p.1) →
      ∀ p ∈ dict, (Prod.snd p).tzname = p.1
  | [], acc, dict, h, hacc => by
    rw [renderAux_nil_ok] at h
    subst h
    exact hacc
  | num :: rest, acc, dict, h, hacc => by
    rcases renderAux_cons_ok.mp h with ⟨acc1, hs, hrest⟩
    rcases renderStep_ok hs with ⟨tr, _hget, hcase⟩
    rcases hcase with ⟨s0, _hfind, rfl⟩ | ⟨trP, x, y, _hfind, _hp, _hto, _hfrom, rfl⟩
    · refine renderAux_tzname d rest _ dict hrest ?_
      intro p hp
      rcases dictAppendRdate_mem hp with ⟨q, hq, h1, h2⟩
      rcases h2 with h2 | h2
      · rw [h1, h2]
        exact hacc q hq
      · rw [h1, h2]
        show (addRd q.2 _).tzname = q.1
        rw [addRd]
        exact hacc q hq
    · refine renderAux_tzname d rest _ dict hrest ?_
      intro p hp
      rcases List.mem_append.mp hp with hp | hp
      · exact hacc p hp
      · rcases List.mem_singleton.mp hp with rfl
        rfl

theorem renderAux_nodup_keys (d : DynTZ) :
    ∀ (nums : List Nat) (acc dict : List (String × SubComp)),
      renderAux d nums acc = Except.ok dict →
      (acc.map Prod.fst).Nodup → (dict.map Prod.fst).Nodup
  | [], acc, dict, h, hacc => by
    rw [renderAux_nil_ok] at h
    subst h
    exact hacc
  | num :: rest, acc, dict, h, hacc => by
    rcases renderAux_cons_ok.mp h with ⟨acc1, hs, hrest⟩
    rcases renderStep_ok hs with ⟨tr, _hget, hcase⟩
    rcases hcase with ⟨s0, _hfind, rfl⟩ | ⟨trP, x, y, hfind, _hp, _hto, _hfrom, rfl⟩
    · refine renderAux_nodup_keys d rest _ dict hrest ?_
      rw [dictAppendRdate_map_fst]
      exact hacc
    · refine renderAux_nodup_keys d rest _ dict hrest ?_
      rw [List.map_append]
      rw [List.nodup_append]
      refine ⟨hacc, List.nodup_singleton _, ?_⟩
      intro z hz hz2
      rcases List.mem_singleton.mp hz2 with rfl
      exact dictFind_eq_none.mp hfind hz

theorem renderAux_rdates_count (d : DynTZ) :
    ∀ (nums : List Nat) (acc dict : List (String × SubComp)),
      renderAux d nums acc = Except.ok dict →
      ∀ k s, dictFind dict k = some s →
        s.rdates.length + 1 =
          (match dictFind acc k with
           | some s0 => s0.rdates.length + 1
           | none => 0) +
          ((nums.map fun n => (trAt d n).name).count k)
  | [], acc, dict, h, k, s, hf => by
    rw [renderAux_nil_ok] at h
    subst h
    rw [hf]
    simp
  | num :: rest, acc, dict, h, k, s, hf => by
    rcases renderAux_cons_ok.mp h with ⟨acc1, hs, hrest⟩
    rcases renderStep_ok hs with ⟨tr, hget, hcase⟩
    have hname : trAt d num = tr := trAt_of_get? hget
    have ih := renderAux_rdates_count d rest acc1 dict hrest k s hf
    rw [List.map_cons, hname, List.count_cons]
    rcases hcase with ⟨s0, hfind, rfl⟩ | ⟨trP, x, y, hfind, _hp, _hto, _hfrom, rfl⟩
    · by_cases hk : k = tr.name
      · subst hk
        rw [dictFind_appendRdate_self, hfind] at ih
        rw [hfind]
        rw [Option.map_some'] at ih
        dsimp only at ih
        have ha : (addRd s0 (d.localize tr.time)).rdates.length = s0.rdates.length + 1 := by
          simp [addRd]
        rw [ha] at ih
        simp
        rw [ih]
        ring
      · rw [dictFind_appendRdate_other _ _ hk] at ih
        rw [ih]
        have : (tr.name == k) = false := by
          simp [Ne.symm hk]
        rw [this]
        simp
    · by_cases hk : k = tr.name
      · subst hk
        rw [dictFind_append_none hfind] at ih
        rw [dictFind, if_pos rfl] at ih
        rw [hfind]
        rw [ih]
        simp
        omega
      · have : dictFind (acc ++ [(tr.name, SubComp.mk tr.isDst tr.name
            (d.localize tr.time) [] x y)]) k = dictFind acc k := by
          cases hfk : dictFind acc k with
          | some s1 => exact dictFind_append_some hfk
          | none =>
            rw [dictFind_append_none hfk, dictFind, if_neg (fun hc => hk hc.symm)]
            rfl
        rw [this] at ih
        rw [ih]
        have : (tr.name == k) = false := by
          simp [Ne.symm hk]
        rw [this]
        simp

theorem renderAux_preserve (d : DynTZ) :
    ∀ (nums : List Nat) (acc dict : List (String × SubComp)),
      renderAux d nums acc = Except.ok dict →
      ∀ k s, dictFind acc k = some s →
        ∃ s2, dictFind dict k = some s2 ∧
          s2.isDaylight = s.isDaylight ∧ s2.tzname = s.tzname ∧
          s2.dtstart = s.dtstart ∧ s2.offsetTo = s.offsetTo ∧
          s2.offsetFrom = s.offsetFrom
  | [], acc, dict, h, k, s, hf => by
    rw [renderAux_nil_ok] at h
    subst h
    exact ⟨s, hf, rfl, rfl, rfl, rfl, rfl⟩
  | num :: rest, acc, dict, h, k, s, hf => by
    rcases renderAux_cons_ok.mp h with ⟨acc1, hs, hrest⟩
    rcases renderStep_ok hs with ⟨tr, _hget, hcase⟩
    rcases hcase with ⟨s0, hfind, rfl⟩ | ⟨trP, x, y, hfind, _hp, _hto, _hfrom, rfl⟩
    · by_cases hk : k = tr.name
      · subst hk
        have hf2 : dictFind (dictAppendRdate acc tr.name (d.localize tr.time)) tr.name =
            some (addRd s (d.localize tr.time)) := by
          rw [dictFind_appendRdate_self, hf, Option.map_some']
        rcases renderAux_preserve d rest _ dict hrest tr.name _ hf2 with
          ⟨s2, hs2, h1, h2, h3, h4, h5⟩
        exact ⟨s2, hs2, h1, h2, h3, h4, h5⟩
      · have hf2 : dictFind (dictAppendRdate acc tr.name (d.localize tr.time)) k =
            some s := by
          rw [dictFind_appendRdate_other _ _ hk, hf]
        exact renderAux_preserve d rest _ dict hrest k s hf2
    · have hf2 : dictFind (acc ++ [(tr.name, SubComp.mk tr.isDst tr.name
          (d.localize tr.time) [] x y)]) k = some s := dictFind_append_some hf
      exact renderAux_preserve d rest _ dict hrest k s hf2

theorem renderAux_creates (d : DynTZ) :
    ∀ (pre : List Nat) (num : Nat) (post : List Nat)
      (acc dict : List (String × SubComp)) (tr : Transition),
      renderAux d (pre ++ num :: post) acc = Except.ok dict →
      d.transitions.get? num = some tr →
      dictFind acc tr.name = none →
      (∀ m ∈ pre, (trAt d m).name ≠ tr.name) →
      ∃ s trP, dictFind dict tr.name = some s ∧
        pyIdx d.transitions ((num : Int) - 1) = Except.ok trP ∧
        s.isDaylight = tr.isDst ∧ s.tzname = tr.name ∧
        s.dtstart = d.localize tr.time ∧
        Offset.td s.offsetTo = tr.offset ∧
        Offset.td s.offsetFrom = trP.offset
  | [], num, post, acc, dict, tr, h, hget, hnone, _hpre => by
    rw [List.nil_append] at h
    rcases renderAux_cons_ok.mp h with ⟨acc1, hs, hrest⟩
    rcases renderStep_ok hs with ⟨tr2, hget2, hcase⟩
    rw [hget] at hget2
    obtain rfl : tr = tr2 := Option.some_inj.mp hget2
    rcases hcase with ⟨s0, hfind, rfl⟩ | ⟨trP, x, y, _hfind, hp, hto, hfrom, rfl⟩
    · rw [hnone] at hfind
      exact Option.noConfusion hfind
    · have hf1 : dictFind (acc ++ [(tr.name, SubComp.mk tr.isDst tr.name
          (d.localize tr.time) [] x y)]) tr.name =
          some (SubComp.mk tr.isDst tr.name (d.localize tr.time) [] x y) := by
        rw [dictFind_append_none hnone, dictFind, if_pos rfl]
      rcases renderAux_preserve d post _ dict hrest tr.name _ hf1 with
        ⟨s2, hs2, h1, h2, h3, h4, h5⟩
      refine ⟨s2, trP, hs2, hp, ?_, ?_, ?_, ?_, ?_⟩
      · rw [h1]
      · rw [h2]
      · rw [h3]
      · rw [h4, hto]
      · rw [h5, hfrom]
  | p :: pre, num, post, acc, dict, tr, h, hget, hnone, hpre => by
    rw [List.cons_append] at h
    rcases renderAux_cons_ok.mp h with ⟨acc1, hs, hrest⟩
    rcases renderStep_ok hs with ⟨trHead, hgetHead, hcase⟩
    have hneq : trHead.name ≠ tr.name := by
      have := hpre p (List.mem_cons_self p pre)
      rw [trAt_of_get? hgetHead] at this
      exact this
    have hpre2 : ∀ m ∈ pre, (trAt d m).name ≠ tr.name := fun m hm =>
      hpre m (List.mem_cons_of_mem p hm)
    rcases hcase with ⟨s0, _hfind, rfl⟩ | ⟨trP, x, y, _hfind, _hp, _hto, _hfrom, rfl⟩
    · have hnone2 : dictFind (dictAppendRdate acc trHead.name
          (d.localize trHead.time)) tr.name = none := by
        rw [dictFind_appendRdate_other _ _ (fun hc => hneq hc.symm), hnone]
      exact renderAux_creates d pre num post _ dict tr hrest hget hnone2 hpre2
    · have hnone2 : dictFind (acc ++ [(trHead.name, SubComp.mk trHead.isDst
          trHead.name (d.localize trHead.time) [] x y)]) tr.name = none := by
        rw [dictFind_append_none hnone, dictFind,
          if_neg (fun hc => hneq hc), dictFind]
      exact renderAux_creates d pre num post _ dict tr hrest hget hnone2 hpre2

theorem create_timezone_dyn_ok {d : DynTZ} {fb lb : Option Int} {now : Int}
    {f l : Nat} {t : VTimezone}
    (hscan : scanWindow (d.transitions.map Transition.time)
      (normBound fb now) (normBound lb now) = Except.ok (f, l))
    (h : create_timezone (TZRef.dyn d) fb lb now = Except.ok t) :
    ∃ dict, renderAux d (List.range' f (l + 1 - f)) [] = Except.ok dict ∧
      t = VTimezone.mk d.name (dict.map Prod.snd) := by
  unfold create_timezone at h
  dsimp only at h
  rw [hscan] at h
  dsimp only at h
  cases hr : renderAux d (List.range' f (l + 1 - f)) [] with
  | error e => rw [hr] at h; exact Except.noConfusion h
  | ok dict =>
    rw [hr] at h
    exact ⟨dict, rfl, (Except.ok.inj h).symm⟩

theorem create_timezone_dyn_eq {d : DynTZ} {fb lb : Option Int} {now : Int}
    {f l : Nat} {dict : List (String × SubComp)}
    (hscan : scanWindow (d.transitions.map Transition.time)
      (normBound fb now) (normBound lb now) = Except.ok (f, l))
    (hrender : renderAux d (List.range' f (l + 1 - f)) [] = Except.ok dict) :
    create_timezone (TZRef.dyn d) fb lb now =
      Except.ok (VTimezone.mk d.name (dict.map Prod.snd)) := by
  unfold create_timezone
  dsimp only
  rw [hscan]
  dsimp only
  rw [hrender]

theorem create_timezone_dyn_error {d : DynTZ} {fb lb : Option Int} {now : Int}
    {f l : Nat} {e : String}
    (hscan : scanWindow (d.transitions.map Transition.time)
      (normBound fb now) (normBound lb now) = Except.ok (f, l))
    (hrender : renderAux d (List.range' f (l + 1 - f)) [] = Except.error e) :
    create_timezone (TZRef.dyn d) fb lb now = Except.error e := by
  unfold create_timezone
  dsimp only
  rw [hscan]
  dsimp only
  rw [hrender]

theorem renderStep_eq_new {d : DynTZ} {num : Nat} {acc : List (String × SubComp)}
    {tr trP : Transition} {x y : Int}
    (hg : d.transitions.get? num = some tr)
    (hfind : dictFind acc tr.name = none)
    (hP : pyIdx d.transitions ((num : Int) - 1) = Except.ok trP)
    (hx : tr.offset = Offset.td x) (hy : trP.offset = Offset.td y) :
    renderStep d num acc = Except.ok (acc ++
      [(tr.name, SubComp.mk tr.isDst tr.name (d.localize tr.time) [] x y)]) := by
  unfold renderStep
  rw [pyIdx_get? hg]
  dsimp only
  rw [hfind]
  dsimp only
  rw [hP]
  dsimp only
  rw [hx, hy]

theorem renderStep_eq_bad {d : DynTZ} {num : Nat} {acc : List (String × SubComp)}
    {tr trP : Transition}
    (hg : d.transitions.get? num = some tr)
    (hfind : dictFind acc tr.name = none)
    (hP : pyIdx d.transitions ((num : Int) - 1) = Except.ok trP)
    (hbad : tr.offset.isTd = false ∨ trP.offset.isTd = false) :
    renderStep d num acc =
      Except.error "ValueError: TZOFFSET values must be timedelta instances" := by
  unfold renderStep
  rw [pyIdx_get? hg]
  dsimp only
  rw [hfind]
  dsimp only
  rw [hP]
  dsimp only
  cases hto : tr.offset with
  | td x =>
    cases hfrom : trP.offset with
    | td y =>
      rcases hbad with hb | hb
      · rw [hto] at hb
        exact absurd hb (by simp [Offset.isTd])
      · rw [hfrom] at hb
        exact absurd hb (by simp [Offset.isTd])
    | notTd ty => rfl
  | notTd ty =>
    cases trP.offset <;> rfl

theorem renderStep_eq_rdate {d : DynTZ} {num : Nat} {acc : List (String × SubComp)}
    {tr : Transition} {s0 : SubComp}
    (hg : d.transitions.get? num = some tr)
    (hfind : dictFind acc tr.name = some s0) :
    renderStep d num acc =
      Except.ok (dictAppendRdate acc tr.name (d.localize tr.time)) := by
  unfold renderStep
  rw [pyIdx_get? hg]
  dsimp only
  rw [hfind]

theorem range'_split {f num l : Nat} (h1 : f ≤ num) (h2 : num ≤ l) :
    List.range' f (l + 1 - f) =
      List.range' f (num - f) ++ num :: List.range' (num + 1) (l - num) := by
  have e2 : (l + 1 - num) + (num - f) = l + 1 - f := by omega
  have happ := List.range'_append f (num - f) (l + 1 - num) 1
  rw [e2] at happ
  have e1 : f + 1 * (num - f) = num := by omega
  rw [e1] at happ
  have e3 : l + 1 - num = (l - num) + 1 := by omega
  rw [e3] at happ
  rw [← happ]
  rfl

/-! ### Example timezones used as concrete inputs -/

/-- A static zone whose fixed offset is one hour (+3600 s). -/
def exStaticGmt1 : StaticTZ := StaticTZ.mk "Etc/GMT-1" (Offset.td 3600)

/-- A static zone whose recorded offset is a plain number, not a timedelta. -/
def exStaticBad : StaticTZ := StaticTZ.mk "FixedBad" (Offset.notTd "int")

/-- A dynamic zone with two transitions at distinct instants (a minimal
EST/EDT-style history). -/
def exZoneC3 : DynTZ := DynTZ.mk "America/Example"
  [Transition.mk 0 (Offset.td (-18000)) false "EST",
   Transition.mk 1000 (Offset.td (-14400)) true "EDT"]
  (fun t => t - 18000)

/-- A dynamic zone with two transitions at distinct instants (a minimal
NZMT/NZST-style history). -/
def exZoneC8 : DynTZ := DynTZ.mk "Pacific/Example"
  [Transition.mk 0 (Offset.td 41400) false "NZMT",
   Transition.mk 2000 (Offset.td 43200) true "NZST"]
  (fun t => t + 41400)

/-- A dynamic zone whose single transition has a non-timedelta offset. -/
def exZoneBadOffset : DynTZ := DynTZ.mk "BadOffset"
  [Transition.mk 0 (Offset.notTd "int") false "X"]
  (fun t => t)

/-! ### The claims -/

/-- C1: the claim says the static path emits TZOFFSETFROM = TZOFFSETTO =
the zone's fixed UTC offset.  The code fetches the offset but overwrites it
with `timedelta(seconds=0)` (lines 59–61), so a static zone with fixed
offset +3600 s is rendered with both TZOFFSET values equal to 0, while the
rest of the claim (exactly one STANDARD sub-component, TZNAME the display
string, DTSTART the 1601 sentinel, immediate return) does hold. -/
theorem C1_static_zero_offset :
    create_timezone (TZRef.static exStaticGmt1) none none 0 =
      Except.ok (VTimezone.mk "Etc/GMT-1"
        [SubComp.mk false "Etc/GMT-1" datetime1601 [] 0 0]) ∧
    exStaticGmt1.offset = Offset.td 3600 ∧ (3600 : Int) ≠ 0 :=
  ⟨rfl, rfl, by decide⟩

/-- C2 (counterexample): the claim says a non-timedelta recorded offset
always aborts the build with a type error.  A static zone whose fixed
offset is not a timedelta is nevertheless built without any error, and the
result carries the coerced offset 0 in its place. -/
theorem C2_counterexample :
    create_timezone (TZRef.static exStaticBad) none none 0 =
      Except.ok (VTimezone.mk "FixedBad"
        [SubComp.mk false "FixedBad" datetime1601 [] 0 0]) ∧
    exStaticBad.offset.isTd = false :=
  ⟨rfl, rfl⟩

/-- C2 (amended): on the dynamic path, when the first transition of the
selected window has a recorded offset that is not a timedelta — at its own
index or at index − 1 (which wraps to the final transition when the index
is 0) — the build aborts with
`ValueError: TZOFFSET values must be timedelta instances` and returns no
result. -/
theorem C2_amended_thm (d : DynTZ) (fb lb : Option Int) (now : Int)
    (f l : Nat) (trF trP : Transition)
    (hscan : scanWindow (d.transitions.map Transition.time)
      (normBound fb now) (normBound lb now) = Except.ok (f, l))
    (hfl : f ≤ l)
    (hgF : d.transitions.get? f = some trF)
    (hP : pyIdx d.transitions ((f : Int) - 1) = Except.ok trP)
    (hbad : trF.offset.isTd = false ∨ trP.offset.isTd = false) :
    create_timezone (TZRef.dyn d) fb lb now =
      Except.error "ValueError: TZOFFSET values must be timedelta instances" := by
  have hcons : List.range' f (l + 1 - f) = f :: List.range' (f + 1) (l - f) := by
    have e : l + 1 - f = (l - f) + 1 := by omega
    rw [e]
    rfl
  have hstep : renderStep d f [] =
      Except.error "ValueError: TZOFFSET values must be timedelta instances" :=
    renderStep_eq_bad hgF rfl hP hbad
  have hrender : renderAux d (List.range' f (l + 1 - f)) [] =
      Except.error "ValueError: TZOFFSET values must be timedelta instances" := by
    rw [hcons, renderAux, hstep]
  exact create_timezone_dyn_error hscan hrender

/-- C2 (witness for the amended claim): the single-transition zone whose
offset is a plain number makes the build abort with the ValueError. -/
theorem C2_amended_witness :
    create_timezone (TZRef.dyn exZoneBadOffset) none none 0 =
      Except.error "ValueError: TZOFFSET values must be timedelta instances" :=
  C2_amended_thm exZoneBadOffset none none 0 0 0
    (Transition.mk 0 (Offset.notTd "int") false "X")
    (Transition.mk 0 (Offset.notTd "int") false "X")
    rfl (Nat.le_refl 0) rfl rfl (Or.inl rfl)

/-- C3: the claim describes the window-selection scan (`first_num` the
latest index before `first_date`, `last_num` the earliest index after
`last_date`) and says transitions `[first_num, last_num]` are rendered.
The code cannot reach that point on any history with two distinct
transition instants: the normalized bounds are timezone-aware
(lines 74–75) while the transition instants are naive, so the loop's very
first comparison against a bound raises `TypeError` and nothing is
rendered. -/
theorem C3_scan_type_error :
    create_timezone (TZRef.dyn exZoneC3) (some 500) (some 600) 0 =
      Except.error
        "TypeError: cannot compare offset-naive and offset-aware datetimes" :=
  rfl

/-- C8: the claim says every valid window (`first_date ≤ last_date`, here a
collapsed window sitting exactly on a transition) yields a tree with at
least one sub-component.  On this two-transition zone the build raises
`TypeError` instead (naive transition instants compared against the aware
bounds), so no tree is returned at all. -/
theorem C8_scan_type_error :
    create_timezone (TZRef.dyn exZoneC8) (some 2000) (some 2000) 0 =
      Except.error
        "TypeError: cannot compare offset-naive and offset-aware datetimes" :=
  rfl

/-- C9: `to_naive_utc` is the identity on any value that carries no zone
information (no `tzinfo` attribute, or `tzinfo is None`); being a total
function of the model, it raises no error on any datetime-like input. -/
theorem C9_identity_on_no_tz (v : DTLike) (h : hasNoTz v = true) :
    to_naive_utc v = v := by
  cases v with
  | nonDT tag => rfl
  | naive instant => rfl
  | aware instant zone => exact absurd h (by simp [hasNoTz])

/-- C9 (witness): the naive value 42 has no zone and is returned
unchanged. -/
theorem C9_witness :
    hasNoTz (DTLike.naive 42) = true ∧
      to_naive_utc (DTLike.naive 42) = DTLike.naive 42 :=
  ⟨rfl, C9_identity_on_no_tz (DTLike.naive 42) rfl⟩

/-- C10: `to_naive_utc` is idempotent on every datetime-like input. -/
theorem C10_idempotent (v : DTLike) :
    to_naive_utc (to_naive_utc v) = to_naive_utc v := by
  cases v <;> rfl

theorem renderAux_cons_eq {d : DynTZ} {num : Nat} {rest : List Nat}
    {acc acc1 : List (String × SubComp)}
    (h : renderStep d num acc = Except.ok acc1) :
    renderAux d (num :: rest) acc = renderAux d rest acc1 := by
  simp [renderAux, h]

/-- C4: conditional on the build returning a tree, the number of
sub-components equals the number of distinct abbreviated names among the
transitions of the selected window `[first_num, last_num]`, and each
sub-component carries one RDATE per occurrence of its name beyond the
first (`rdates + 1 = occurrences`). -/
theorem C4_subcomponent_grouping (d : DynTZ) (fb lb : Option Int) (now : Int)
    (t : VTimezone) (f l : Nat)
    (hscan : scanWindow (d.transitions.map Transition.time)
      (normBound fb now) (normBound lb now) = Except.ok (f, l))
    (hok : create_timezone (TZRef.dyn d) fb lb now = Except.ok t) :
    t.subcomps.length = (firstSeen (windowNames d f l)).length ∧
    ∀ s ∈ t.subcomps, s.rdates.length + 1 = (windowNames d f l).count s.tzname := by
  rcases create_timezone_dyn_ok hscan hok with ⟨dict, hrender, rfl⟩
  constructor
  · show (dict.map Prod.snd).length = (firstSeen (windowNames d f l)).length
    have hkeys := renderAux_keys d _ [] dict hrender
    have h2 : (dict.map Prod.fst).length = (dict.map Prod.snd).length := by
      rw [List.length_map, List.length_map]
    rw [← h2, hkeys]
    simp [firstSeen, windowNames]
  · intro s hs
    rcases List.mem_map.mp hs with ⟨p, hp, rfl⟩
    have htz : p.2.tzname = p.1 :=
      renderAux_tzname d _ [] dict hrender
        (fun q hq => absurd hq (List.not_mem_nil q)) p hp
    have hnd : (dict.map Prod.fst).Nodup :=
      renderAux_nodup_keys d _ [] dict hrender (by simp)
    have hfind : dictFind dict p.1 = some p.2 := mem_dictFind hnd hp
    have hcount := renderAux_rdates_count d _ [] dict hrender p.1 p.2 hfind
    rw [htz]
    simpa [dictFind, windowNames] using hcount

/-- A dynamic zone whose three transitions share one instant (so the
aware-vs-naive comparisons of the window scan are never reached) and carry
the names A, B, A. -/
def exZoneABA : DynTZ := DynTZ.mk "Zone4"
  [Transition.mk 100 (Offset.td 3600) false "A",
   Transition.mk 100 (Offset.td 7200) true "B",
   Transition.mk 100 (Offset.td 3600) false "A"]
  (fun t => t + 3600)

/-- C4 (witness): on the A, B, A history the build returns two
sub-components; A occurs twice and its sub-component has one RDATE, B
occurs once and has none. -/
theorem C4_witness :
    ∃ t, create_timezone (TZRef.dyn exZoneABA) none none 0 = Except.ok t ∧
      t.subcomps.length = (firstSeen (windowNames exZoneABA 0 2)).length ∧
      ∀ s ∈ t.subcomps, s.rdates.length + 1 =
        (windowNames exZoneABA 0 2).count s.tzname :=
  ⟨VTimezone.mk "Zone4"
      [SubComp.mk false "A" 3700 [3700] 3600 3600,
       SubComp.mk true "B" 3700 [] 7200 3600],
    rfl,
    C4_subcomponent_grouping exZoneABA none none 0
      (VTimezone.mk "Zone4"
        [SubComp.mk false "A" 3700 [3700] 3600 3600,
         SubComp.mk true "B" 3700 [] 7200 3600])
      0 2 rfl rfl⟩

/-- C6: conditional on the build returning a tree, every transition index
`num > 0` of the selected window that is the first occurrence of its
abbreviated name yields a sub-component whose TZOFFSETTO is transition
`num`'s recorded offset and whose TZOFFSETFROM is transition `num - 1`'s
recorded offset. -/
theorem C6_first_occurrence_offsets (d : DynTZ) (fb lb : Option Int) (now : Int)
    (t : VTimezone) (f l num : Nat) (tr : Transition)
    (hscan : scanWindow (d.transitions.map Transition.time)
      (normBound fb now) (normBound lb now) = Except.ok (f, l))
    (hok : create_timezone (TZRef.dyn d) fb lb now = Except.ok t)
    (hf : f ≤ num) (hl : num ≤ l)
    (hget : d.transitions.get? num = some tr)
    (hfirst : ∀ m ∈ List.range' f (num - f), (trAt d m).name ≠ tr.name)
    (hpos : 0 < num) :
    ∃ s ∈ t.subcomps, s.tzname = tr.name ∧
      Offset.td s.offsetTo = tr.offset ∧
      Offset.td s.offsetFrom = (trAt d (num - 1)).offset := by
  rcases create_timezone_dyn_ok hscan hok with ⟨dict, hrender, rfl⟩
  rw [range'_split hf hl] at hrender
  rcases renderAux_creates d _ num _ [] dict tr hrender hget rfl hfirst with
    ⟨s, trP, hfind, hp, _h1, h2, _h3, h4, h5⟩
  refine ⟨s, List.mem_map.mpr ⟨(tr.name, s), dictFind_mem hfind, rfl⟩, h2, h4, ?_⟩
  have hcast : ((num : Int) - 1) = ((num - 1 : Nat) : Int) := by omega
  rw [hcast] at hp
  have hget2 : d.transitions.get? (num - 1) = some trP := pyIdx_natCast_ok hp
  rw [trAt_of_get? hget2]
  exact h5

/-- A dynamic zone with two same-instant transitions named X and Y with
distinct recorded offsets. -/
def exZoneXY : DynTZ := DynTZ.mk "ZoneXY"
  [Transition.mk 50 (Offset.td 100) false "X",
   Transition.mk 50 (Offset.td 200) true "Y"]
  (fun t => t)

/-- C6 (witness): on the X, Y history the sub-component for the first
occurrence of Y (index 1) has TZOFFSETTO = Y's offset (+200 s) and
TZOFFSETFROM = X's offset (+100 s, transition 0). -/
theorem C6_witness :
    ∃ t, create_timezone (TZRef.dyn exZoneXY) none none 0 = Except.ok t ∧
      ∃ s ∈ t.subcomps, s.tzname = "Y" ∧
        Offset.td s.offsetTo = (Transition.mk 50 (Offset.td 200) true "Y").offset ∧
        Offset.td s.offsetFrom = (trAt exZoneXY 0).offset :=
  ⟨VTimezone.mk "ZoneXY"
      [SubComp.mk false "X" 50 [] 100 200,
       SubComp.mk true "Y" 50 [] 200 100],
    rfl,
    C6_first_occurrence_offsets exZoneXY none none 0
      (VTimezone.mk "ZoneXY"
        [SubComp.mk false "X" 50 [] 100 200,
         SubComp.mk true "Y" 50 [] 200 100])
      0 1 1 (Transition.mk 50 (Offset.td 200) true "Y")
      rfl rfl (by decide) (by decide) rfl (by decide) (by decide)⟩

/-- C7: conditional on the build returning a tree, when the selected window
starts at history index 0, the sub-component created for transition 0 has
TZOFFSETFROM equal to the recorded offset of the final transition of the
history: the `num - 1` lookup at `num = 0` wraps around to the last
element instead of raising an error. -/
theorem C7_wraparound (d : DynTZ) (fb lb : Option Int) (now : Int)
    (t : VTimezone) (l : Nat) (tr0 : Transition)
    (hscan : scanWindow (d.transitions.map Transition.time)
      (normBound fb now) (normBound lb now) = Except.ok (0, l))
    (hok : create_timezone (TZRef.dyn d) fb lb now = Except.ok t)
    (hget : d.transitions.get? 0 = some tr0) :
    ∃ s ∈ t.subcomps, s.tzname = tr0.name ∧
      ∃ trLast, d.transitions.getLast? = some trLast ∧
        Offset.td s.offsetFrom = trLast.offset := by
  rcases create_timezone_dyn_ok hscan hok with ⟨dict, hrender, rfl⟩
  have hne : d.transitions ≠ [] := by
    intro hc
    rw [hc] at hget
    exact Option.noConfusion hget
  have hcons : List.range' 0 (l + 1 - 0) = 0 :: List.range' 1 l := by
    have e : l + 1 - 0 = l + 1 := by omega
    rw [e]
    rfl
  rw [hcons] at hrender
  have hrender2 : renderAux d ([] ++ 0 :: List.range' 1 l) [] = Except.ok dict := by
    rw [List.nil_append]
    exact hrender
  rcases renderAux_creates d [] 0 (List.range' 1 l) [] dict tr0 hrender2 hget rfl
      (fun m hm => absurd hm (List.not_mem_nil m)) with
    ⟨s, trP, hfind, hp, _h1, h2, _h3, _h4, h5⟩
  have hz : (((0 : Nat) : Int) - 1) = (-1 : Int) := by norm_num
  rw [hz, pyIdx_neg_one d.transitions hne] at hp
  have htrP : trP = d.transitions.getLast hne := (Except.ok.inj hp).symm
  refine ⟨s, List.mem_map.mpr ⟨(tr0.name, s), dictFind_mem hfind, rfl⟩, h2,
    d.transitions.getLast hne, List.getLast?_eq_getLast d.transitions hne, ?_⟩
  rw [h5, htrP]

/-- A dynamic zone with two same-instant transitions P and Q whose recorded
offsets differ, exhibiting the wrap-around TZOFFSETFROM at index 0. -/
def exZoneWrap : DynTZ := DynTZ.mk "ZoneWrap"
  [Transition.mk 60 (Offset.td 111) false "P",
   Transition.mk 60 (Offset.td 222) true "Q"]
  (fun t => t)

/-- C7 (witness): on the P, Q history the sub-component for transition 0
gets TZOFFSETFROM from the final transition (+222 s), which differs from
transition 0's own offset (+111 s). -/
theorem C7_witness :
    (∃ t, create_timezone (TZRef.dyn exZoneWrap) none none 0 = Except.ok t ∧
      ∃ s ∈ t.subcomps,
        s.tzname = (Transition.mk 60 (Offset.td 111) false "P").name ∧
        ∃ trLast, exZoneWrap.transitions.getLast? = some trLast ∧
          Offset.td s.offsetFrom = trLast.offset) ∧
    (trAt exZoneWrap 1).offset ≠ (trAt exZoneWrap 0).offset :=
  ⟨⟨VTimezone.mk "ZoneWrap"
      [SubComp.mk false "P" 60 [] 111 222,
       SubComp.mk true "Q" 60 [] 222 111],
     rfl,
     C7_wraparound exZoneWrap none none 0
       (VTimezone.mk "ZoneWrap"
         [SubComp.mk false "P" 60 [] 111 222,
          SubComp.mk true "Q" 60 [] 222 111])
       1 (Transition.mk 60 (Offset.td 111) false "P") rfl rfl rfl⟩,
   by decide⟩

/-- C5: when the selected window consists of exactly the three transitions
at indices `f, f + 1, f + 2` carrying names A, B, A (A ≠ B) with timedelta
offsets, the build returns exactly two sub-components: A's carries exactly
one RDATE, the local start time of the second A transition, and B's
carries none. -/
theorem C5_aba_two_subcomponents (d : DynTZ) (fb lb : Option Int) (now : Int)
    (f : Nat) (trF trB trA2 trP : Transition) (x y z : Int)
    (hscan : scanWindow (d.transitions.map Transition.time)
      (normBound fb now) (normBound lb now) = Except.ok (f, f + 2))
    (hgF : d.transitions.get? f = some trF)
    (hgB : d.transitions.get? (f + 1) = some trB)
    (hgA : d.transitions.get? (f + 2) = some trA2)
    (hP : pyIdx d.transitions ((f : Int) - 1) = Except.ok trP)
    (hab : trF.name ≠ trB.name)
    (hname : trA2.name = trF.name)
    (hx : trF.offset = Offset.td x) (hy : trP.offset = Offset.td y)
    (hz : trB.offset = Offset.td z) :
    create_timezone (TZRef.dyn d) fb lb now =
      Except.ok (VTimezone.mk d.name
        [SubComp.mk trF.isDst trF.name (d.localize trF.time)
           [d.localize trA2.time] x y,
         SubComp.mk trB.isDst trB.name (d.localize trB.time) [] z x]) := by
  have h1 : renderStep d f [] = Except.ok
      [(trF.name, SubComp.mk trF.isDst trF.name (d.localize trF.time) [] x y)] :=
    renderStep_eq_new hgF rfl hP hx hy
  have hP2 : pyIdx d.transitions (((f + 1 : Nat) : Int) - 1) = Except.ok trF := by
    have hcast : ((f + 1 : Nat) : Int) - 1 = ((f : Nat) : Int) := by push_cast; ring
    rw [hcast]
    exact pyIdx_get? hgF
  have hfindB : dictFind
      [(trF.name, SubComp.mk trF.isDst trF.name (d.localize trF.time) [] x y)]
      trB.name = none := by
    rw [dictFind, if_neg hab]
    rfl
  have h2 : renderStep d (f + 1)
      [(trF.name, SubComp.mk trF.isDst trF.name (d.localize trF.time) [] x y)] =
      Except.ok
        [(trF.name, SubComp.mk trF.isDst trF.name (d.localize trF.time) [] x y),
         (trB.name, SubComp.mk trB.isDst trB.name (d.localize trB.time) [] z x)] :=
    renderStep_eq_new hgB hfindB hP2 hz hx
  have hfindA : dictFind
      [(trF.name, SubComp.mk trF.isDst trF.name (d.localize trF.time) [] x y),
       (trB.name, SubComp.mk trB.isDst trB.name (d.localize trB.time) [] z x)]
      trA2.name = some (SubComp.mk trF.isDst trF.name (d.localize trF.time) [] x y) := by
    rw [hname, dictFind, if_pos rfl]
  have h3 : renderStep d (f + 2)
      [(trF.name, SubComp.mk trF.isDst trF.name (d.localize trF.time) [] x y),
       (trB.name, SubComp.mk trB.isDst trB.name (d.localize trB.time) [] z x)] =
      Except.ok
        [(trF.name, SubComp.mk trF.isDst trF.name (d.localize trF.time)
            [d.localize trA2.time] x y),
         (trB.name, SubComp.mk trB.isDst trB.name (d.localize trB.time) [] z x)] := by
    have := renderStep_eq_rdate hgA hfindA
    rw [this, hname, dictAppendRdate, if_pos rfl]
    rfl
  have hnums : List.range' f (f + 2 + 1 - f) = [f, f + 1, f + 2] := by
    have e : f + 2 + 1 - f = 3 := by omega
    rw [e]
    rfl
  have hrender : renderAux d (List.range' f (f + 2 + 1 - f)) [] = Except.ok
      [(trF.name, SubComp.mk trF.isDst trF.name (d.localize trF.time)
          [d.localize trA2.time] x y),
       (trB.name, SubComp.mk trB.isDst trB.name (d.localize trB.time) [] z x)] := by
    rw [hnums, renderAux_cons_eq h1, renderAux_cons_eq h2, renderAux_cons_eq h3]
    rfl
  exact create_timezone_dyn_eq hscan hrender

/-- A dynamic zone whose three same-instant transitions carry the names
A, B, A with three distinct timedelta offsets. -/
def exZoneABA5 : DynTZ := DynTZ.mk "Zone5"
  [Transition.mk 7 (Offset.td 10) false "A",
   Transition.mk 7 (Offset.td 20) true "B",
   Transition.mk 7 (Offset.td 30) false "A"]
  (fun t => t + 5)

/-- C5 (witness): on the A, B, A history the build returns exactly the two
sub-components, A's with the single RDATE 12 (the second A's local start
time) and B's with none. -/
theorem C5_witness :
    create_timezone (TZRef.dyn exZoneABA5) none none 0 =
      Except.ok (VTimezone.mk "Zone5"
        [SubComp.mk false "A" 12 [12] 10 30,
         SubComp.mk true "B" 12 [] 20 10]) :=
  C5_aba_two_subcomponents exZoneABA5 none none 0 0
    (Transition.mk 7 (Offset.td 10) false "A")
    (Transition.mk 7 (Offset.td 20) true "B")
    (Transition.mk 7 (Offset.td 30) false "A")
    (Transition.mk 7 (Offset.td 30) false "A")
    10 30 20
    rfl rfl rfl rfl rfl (by decide) rfl rfl rfl rfl
